import Mathlib

/-!
Shallow embedding of the order/pricing core of the marketplace backend
(models `Order.js` = src/unnamed/part_005, `Promo.js`, `InventoryShipPrice.js`,
the order controllers in src/controllers/order and src/unnamed/part_000, and
the shipping-price endpoint of src/controllers/inventory.js).

Conventions:
- JS numbers carrying money and quantities are modelled as `Rat` (exact
  arithmetic over the base currency unit).
- Timestamps are modelled as `Int` (milliseconds since epoch); JS `Date`
  comparisons coerce to numbers, so integer comparison is faithful.
- Mongoose `document.save()` is modelled as a function from the in-memory
  document to `Except String Order`: validation (schema `enum` and `min`
  checks) runs first, then the user `pre('save')` hook recomputes the
  totals (mongoose runs all validate hooks before any save hook).  An
  `Except.error` result means the save was rejected and the persisted
  document is unchanged.
- Optional schema fields with no default are `Option` types; `none` is the
  JS `undefined`.
-/

/-- Order status strings appearing in the codebase (the ten values used by
the controllers; the Order schema itself only accepts a subset, see
`orderStatusEnum`). -/
inductive OStatus
  | pending
  | vendor_accepted
  | payment_done
  | order_confirmed
  | truck_loading
  | in_transit
  | shipped
  | out_for_delivery
  | delivered
  | cancelled
deriving DecidableEq, Repr

/-- Position of a status in the linear happy-path sequence
pending → vendor_accepted → payment_done → order_confirmed → truck_loading
→ in_transit → shipped → out_for_delivery → delivered (cancelled sits
outside the line and is given the last index). -/
def statusIdx : OStatus → Nat
  | .pending => 0
  | .vendor_accepted => 1
  | .payment_done => 2
  | .order_confirmed => 3
  | .truck_loading => 4
  | .in_transit => 5
  | .shipped => 6
  | .out_for_delivery => 7
  | .delivered => 8
  | .cancelled => 9

/-- The `enum` list of the Order schema field `orderStatus`
(src/unnamed/part_005 lines 119-123): note it does NOT contain
truck_loading, in_transit or out_for_delivery. -/
def orderStatusEnum : List OStatus :=
  [.pending, .vendor_accepted, .payment_done, .order_confirmed,
   .shipped, .delivered, .cancelled]

/-- One embedded order line item (src/unnamed/part_005 lines 20-41). -/
structure OrderItem where
  itemCode : Nat
  qty : Rat
  unitPrice : Rat
  totalCost : Rat
deriving DecidableEq, Repr

/-- The Order document fields relevant to the verified logic
(src/unnamed/part_005). -/
structure Order where
  items : List OrderItem
  totalQty : Rat
  totalAmount : Rat
  promoDiscount : Rat
  orderStatus : OStatus
  isActive : Bool
deriving DecidableEq, Repr

/-- Sum of the items' `qty` fields, as the JS
`items.reduce((sum, item) => sum + item.qty, 0)`. -/
def sumQty (items : List OrderItem) : Rat :=
  items.foldl (fun s i => s + i.qty) 0

/-- Sum of the items' `totalCost` fields, as the JS
`items.reduce((sum, item) => sum + item.totalCost, 0)`. -/
def sumTotalCost (items : List OrderItem) : Rat :=
  items.foldl (fun s i => s + i.totalCost) 0

/-- Schema validation of one embedded item: `qty` has `min: 1`,
`unitPrice` and `totalCost` have `min: 0`. -/
def itemValid (i : OrderItem) : Bool :=
  decide (1 ≤ i.qty) && decide (0 ≤ i.unitPrice) && decide (0 ≤ i.totalCost)

/-- Schema validation of the Order fields other than the status enum:
`promoDiscount` and `totalAmount` have `min: 0`, and every embedded item
must satisfy its own bounds. -/
def fieldsOk (o : Order) : Bool :=
  decide (0 ≤ o.promoDiscount) && decide (0 ≤ o.totalAmount) && o.items.all itemValid

/-- Schema validation of the `orderStatus` enum. -/
def statusOk (o : Order) : Bool :=
  decide (o.orderStatus ∈ orderStatusEnum)

/-- The `pre('save')` middleware of the Order schema (src/unnamed/part_005
lines 166-182): when the items list was modified, recompute `totalQty` and
`totalAmount`, subtracting `promoDiscount` (floored at 0) when it is
positive.  The timestamp updates are not modelled. -/
def recomputeTotals (o : Order) : Order :=
  let tq := sumQty o.items
  let ta := sumTotalCost o.items
  let ta2 := if 0 < o.promoDiscount then max 0 (ta - o.promoDiscount) else ta
  { o with totalQty := tq, totalAmount := ta2 }

/-- Mongoose `save()` on an Order document: validate against the schema
(mongoose runs validation before user save hooks), then run the
`pre('save')` hook; `itemsModified` is `this.isModified('items')`. -/
def saveOrder (itemsModified : Bool) (o : Order) : Except String Order :=
  if statusOk o && fieldsOk o then
    .ok (if itemsModified then recomputeTotals o else o)
  else
    .error "ValidationError"

/-- Helper of `Order.addItem`: the effect of the JS `findIndex` /
update-or-push logic on the items list (src/unnamed/part_005 lines
202-219).  The first line whose `itemCode` matches gets its `qty`
incremented and its `totalCost` recomputed from the incremented `qty`
and the unitPrice ARGUMENT (the stored `unitPrice` field of the line is
left untouched); when no line matches, a new line is pushed at the end. -/
def addItemToList (items : List OrderItem) (code : Nat) (qty unitPrice : Rat) :
    List OrderItem :=
  match items with
  | [] => [{ itemCode := code, qty := qty, unitPrice := unitPrice,
             totalCost := qty * unitPrice }]
  | i :: rest =>
    if i.itemCode = code then
      { i with qty := i.qty + qty, totalCost := (i.qty + qty) * unitPrice } :: rest
    else
      i :: addItemToList rest code qty unitPrice

/-- `orderSchema.methods.addItem` (src/unnamed/part_005 lines 202-222):
mutate the items list then `save()` (the save sees the items as
modified). -/
def Order.addItem (o : Order) (code : Nat) (qty unitPrice : Rat) :
    Except String Order :=
  saveOrder true { o with items := addItemToList o.items code qty unitPrice }

/-- `orderSchema.methods.removeItem` (src/unnamed/part_005 lines 224-229):
filter out the lines matching `itemCode` then `save()`. -/
def Order.removeItem (o : Order) (code : Nat) : Except String Order :=
  saveOrder true { o with items := o.items.filter (fun i => i.itemCode ≠ code) }

/-- `orderSchema.methods.updateStatus` (src/unnamed/part_005 lines
195-200): set `orderStatus` then `save()` (the items list is not
modified, so the totals hook leaves the document alone). -/
def Order.updateStatus (o : Order) (s : OStatus) : Except String Order :=
  saveOrder false { o with orderStatus := s }

/-- The target statuses a vendor may request
(src/controllers/order/vendor.js lines 399-405). -/
def vendorAllowedTargets : List OStatus :=
  [.truck_loading, .in_transit, .shipped, .out_for_delivery, .delivered]

/-- The current statuses from which a vendor status update is allowed to
proceed (src/controllers/order/vendor.js line 427). -/
def vendorAllowedCurrent : List OStatus :=
  [.order_confirmed, .truck_loading, .in_transit, .shipped, .out_for_delivery]

/-- `updateVendorOrderStatus` (src/controllers/order/vendor.js lines
386-474), restricted to the order-state effect: reject a target outside
`vendorAllowedTargets`; reject when the order is not found (modelled by
`isActive = false`, since the query filters on it); reject when the
current status is outside `vendorAllowedCurrent`; otherwise call
`order.updateStatus` (whose save failure surfaces as the catch-all 500,
also an error here).  The status-history append and the delivery-record
update on success are not needed by the claims about this endpoint. -/
def updateVendorOrderStatus (o : Order) (s : OStatus) : Except String Order :=
  if s ∉ vendorAllowedTargets then
    .error "Vendors can only update status to the shipping statuses"
  else if o.isActive = false then
    .error "Order not found or you do not have permission to update this order"
  else if o.orderStatus ∉ vendorAllowedCurrent then
    .error "Cannot update order status from the current status. Order must be confirmed first."
  else
    o.updateStatus s

/-- `cancelOrder` (Admin, src/unnamed/part_000 lines 274-325), restricted
to the order-state effect: 404 when the order is not found (`isActive`
filter), 400 when the order is already delivered, otherwise
`updateStatus('cancelled')`. -/
def adminCancelOrder (o : Order) : Except String Order :=
  if o.isActive = false then
    .error "Order not found"
  else if o.orderStatus = .delivered then
    .error "Cannot cancel delivered order"
  else
    o.updateStatus .cancelled

/-- The `validStatuses` list of the admin manual status update
(src/unnamed/part_000 lines 589-593): all ten statuses. -/
def adminValidStatuses : List OStatus :=
  [.pending, .vendor_accepted, .payment_done, .order_confirmed,
   .truck_loading, .in_transit, .shipped, .out_for_delivery,
   .delivered, .cancelled]

/-- `updateOrderStatus` (Admin override, src/unnamed/part_000 lines
577-642), restricted to the order-state effect: reject a status outside
`adminValidStatuses`, 404 when not found, and otherwise
`order.updateStatus(orderStatus)` with NO check of the current status. -/
def adminUpdateOrderStatus (o : Order) (s : OStatus) : Except String Order :=
  if s ∉ adminValidStatuses then
    .error "Invalid order status"
  else if o.isActive = false then
    .error "Order not found"
  else
    o.updateStatus s

/-- One append-only status-history record (an OrderStatus document);
only the fields the claims inspect are kept. -/
structure StatusEvent where
  status : OStatus
  remarks : String
deriving DecidableEq, Repr

/-- Modelled from the spec: `OrderStatus.createStatusUpdate` (the
OrderStatus model file is not under src/; the spec describes
OrderStatusEvent as an append-only history record written on every
transition).  Appends one event to the history. -/
def createStatusUpdate (hist : List StatusEvent) (s : OStatus) (remarks : String) :
    List StatusEvent :=
  hist ++ [{ status := s, remarks := remarks }]

/-- State touched by the simulated-payment completion callback: the order,
its status history, and the payment record status. -/
structure PayState where
  order : Order
  history : List StatusEvent
  paymentStatus : String
deriving DecidableEq, Repr

/-- The body of the `setTimeout` callback of `processPayment`
(src/controllers/order/customer.js lines 452-484): mark the payment
successful (`markAsSuccessful` is modelled from the spec: the payment
record moves processing → completed), then `updateStatus('payment_done')`
and append its history event, then `updateStatus('order_confirmed')` and
append its history event — two explicit separate steps in that order. -/
def paymentSuccessCallback (st : PayState) : Except String PayState :=
  match st.order.updateStatus .payment_done with
  | .error e => .error e
  | .ok o1 =>
    let h1 := createStatusUpdate st.history .payment_done "Payment processed successfully"
    match o1.updateStatus .order_confirmed with
    | .error e => .error e
    | .ok o2 =>
      .ok { order := o2,
            history := createStatusUpdate h1 .order_confirmed
              "Order confirmed after successful payment",
            paymentStatus := "completed" }

/-- Discount type enum of the Promo schema (`percentage` default,
`fixed`). -/
inductive DiscountType
  | percentage
  | fixed
deriving DecidableEq, Repr

/-- The Promo document fields used by the verified logic
(src/models/Promo.js).  Fields without a schema default and not
`required` are `Option` (`none` = JS `undefined`). -/
structure Promo where
  discount : Rat
  discountAmount : Option Rat
  discountType : DiscountType
  startDate : Int
  endDate : Int
  isActive : Bool
  minOrderValue : Rat
  maxDiscountAmount : Option Rat
  usageLimit : Option Rat
  usedCount : Rat
deriving DecidableEq, Repr

/-- `promoSchema.methods.isValid` (src/models/Promo.js lines 163-169),
with the implicit `new Date()` passed as `now`:
`isActive && now >= startDate && now <= endDate &&
(usageLimit === 0 || usedCount < usageLimit)`.  When `usageLimit` is
`undefined`, both `usageLimit === 0` and `usedCount < usageLimit` are
false in JS, so the last conjunct is false. -/
def Promo.isValidAt (p : Promo) (now : Int) : Bool :=
  p.isActive && decide (p.startDate ≤ now) && decide (now ≤ p.endDate) &&
    (match p.usageLimit with
     | some l => decide (l = 0) || decide (p.usedCount < l)
     | none => false)

/-- The maximum-discount cap step of `calculateDiscount`
(src/models/Promo.js lines 186-188): JS
`if (this.maxDiscountAmount && discountAmount > this.maxDiscountAmount)`,
so the cap applies only when `maxDiscountAmount` is present AND truthy
(nonzero) AND exceeded. -/
def applyMaxCap (p : Promo) (da : Rat) : Rat :=
  match p.maxDiscountAmount with
  | some m => if m ≠ 0 ∧ m < da then m else da
  | none => da

/-- `promoSchema.methods.calculateDiscount` (src/models/Promo.js lines
172-191).  Returns `some 0` when the promo is invalid or the order value
is below `minOrderValue`; otherwise the raw discount is
`orderValue * discount / 100` for percentage type or the stored
`discountAmount` for fixed type, capped by `applyMaxCap` and then by
`Math.min(…, orderValue)`.  A fixed-type promo whose `discountAmount`
is `undefined` makes the JS computation produce NaN; that is `none`
here. -/
def Promo.calculateDiscount (p : Promo) (now : Int) (orderValue : Rat) : Option Rat :=
  if p.isValidAt now = false ∨ orderValue < p.minOrderValue then
    some 0
  else
    match (if p.discountType = DiscountType.percentage then
             some (orderValue * p.discount / 100)
           else p.discountAmount) with
    | none => none
    | some da => some (min (applyMaxCap p da) orderValue)

/-- The `status` virtual of the Promo schema (src/models/Promo.js lines
102-109): inactive / upcoming / expired / exhausted / active, computed
from `now`.  The JS exhausted test is
`usageLimit > 0 && usedCount >= usageLimit`; with `usageLimit`
undefined, `undefined > 0` is false. -/
def Promo.statusAt (p : Promo) (now : Int) : String :=
  if p.isActive = false then "inactive"
  else if now < p.startDate then "upcoming"
  else if p.endDate < now then "expired"
  else if (match p.usageLimit with
           | some l => decide (0 < l) && decide (l ≤ p.usedCount)
           | none => false) then "exhausted"
  else "active"

/-- The InventoryShipPrice document: five order-value bands with a flat
fee each, plus the fields the lookups filter on
(src/models/InventoryShipPrice.js). -/
structure InventoryShipPrice where
  itemCode : Nat
  price0to50k : Rat
  price50kto100k : Rat
  price100kto150k : Rat
  price150kto200k : Rat
  priceAbove200k : Rat
  isActive : Bool
deriving DecidableEq, Repr

/-- `inventoryShipPriceSchema.methods.getShippingPrice`
(src/models/InventoryShipPrice.js lines 92-98): band selection by
inclusive upper bound. -/
def InventoryShipPrice.getShippingPrice (t : InventoryShipPrice) (orderValue : Rat) : Rat :=
  if orderValue ≤ 50000 then t.price0to50k
  else if orderValue ≤ 100000 then t.price50kto100k
  else if orderValue ≤ 150000 then t.price100kto150k
  else if orderValue ≤ 200000 then t.price150kto200k
  else t.priceAbove200k

/-- The `findOne({ itemCode, isActive: true })` query used by both
shipping-fee lookups, over a list modelling the stored collection. -/
def findOneActiveShipPrice (db : List InventoryShipPrice) (code : Nat) :
    Option InventoryShipPrice :=
  db.find? (fun t => t.itemCode == code && t.isActive)

/-- `inventoryShipPriceSchema.statics.getShippingPriceForOrder`
(src/models/InventoryShipPrice.js lines 122-128): when no active table
exists for the item it returns 0, otherwise the band fee. -/
def getShippingPriceForOrder (db : List InventoryShipPrice) (code : Nat)
    (orderValue : Rat) : Rat :=
  match findOneActiveShipPrice db code with
  | none => 0
  | some t => t.getShippingPrice orderValue

/-- The shipping-price HTTP endpoint `getShippingPrice`
(src/controllers/inventory.js lines 412-444), after the missing-parameter
400 check: 404 when no active table exists for the item, otherwise the
band fee.  Errors carry the HTTP status code and message. -/
def getShippingPriceEndpoint (db : List InventoryShipPrice) (code : Nat)
    (orderValue : Rat) : Except (Nat × String) Rat :=
  match findOneActiveShipPrice db code with
  | none => .error (404, "Shipping price not found for this item")
  | some t => .ok (t.getShippingPrice orderValue)

deriving instance DecidableEq for Except

/-- A sample persisted order used by concrete witnesses, parametrised by
its current status. -/
def mkSampleOrder (s : OStatus) : Order :=
  { items := [{ itemCode := 1, qty := 2, unitPrice := 100, totalCost := 200 }],
    totalQty := 2, totalAmount := 200, promoDiscount := 0,
    orderStatus := s, isActive := true }

/-- Inversion of a successful `saveOrder`: the schema checks passed and
the result is the document after the pre-save hook. -/
lemma saveOrder_ok (m : Bool) (o o' : Order) (h : saveOrder m o = Except.ok o') :
    statusOk o = true ∧ fieldsOk o = true ∧
      o' = (if m then recomputeTotals o else o) := by
  unfold saveOrder at h
  split at h
  next hc =>
    rw [Bool.and_eq_true] at hc
    obtain ⟨h1, h2⟩ := hc
    injection h with h3
    exact ⟨h1, h2, h3.symm⟩
  next hc => cases h

/-- Folding `+ totalCost` over a list of items with nonnegative
`totalCost` starting from a nonnegative accumulator stays nonnegative. -/
lemma foldl_totalCost_nonneg (l : List OrderItem) (a : Rat) (ha : 0 ≤ a)
    (hl : ∀ i ∈ l, 0 ≤ i.totalCost) :
    0 ≤ l.foldl (fun s i => s + i.totalCost) a := by
  induction l generalizing a with
  | nil => simpa using ha
  | cons i rest ih =>
    simp only [List.foldl_cons]
    refine ih (a + i.totalCost) ?_ (fun j hj => hl j (by simp [hj]))
    have := hl i (by simp)
    linarith

/-- A validated order has a nonnegative item-cost sum. -/
lemma sumTotalCost_nonneg (o : Order) (hf : fieldsOk o = true) :
    0 ≤ sumTotalCost o.items := by
  rw [fieldsOk, Bool.and_eq_true, Bool.and_eq_true] at hf
  obtain ⟨⟨-, -⟩, hall⟩ := hf
  refine foldl_totalCost_nonneg o.items 0 le_rfl ?_
  intro i hi
  have hv := List.all_eq_true.mp hall i hi
  rw [itemValid, Bool.and_eq_true] at hv
  exact of_decide_eq_true hv.2

/-- A validated order has a nonnegative `promoDiscount`. -/
lemma promoDiscount_nonneg (o : Order) (hf : fieldsOk o = true) :
    0 ≤ o.promoDiscount := by
  rw [fieldsOk, Bool.and_eq_true, Bool.and_eq_true] at hf
  exact of_decide_eq_true hf.1.1

/-- Any successful save that modifies the items list leaves the stored
totals in the derived form of the invariant. -/
lemma save_items_modified_invariant (o o' : Order)
    (h : saveOrder true o = Except.ok o') :
    o'.totalAmount = max 0 (sumTotalCost o'.items - o'.promoDiscount) ∧
    o'.totalQty = sumQty o'.items := by
  obtain ⟨-, hf, ho'⟩ := saveOrder_ok true o o' h
  simp only [if_pos] at ho'
  subst ho'
  have hpd : 0 ≤ o.promoDiscount := promoDiscount_nonneg o hf
  have hsum : 0 ≤ sumTotalCost o.items := sumTotalCost_nonneg o hf
  constructor
  · show (if 0 < o.promoDiscount then
            max 0 (sumTotalCost o.items - o.promoDiscount)
          else sumTotalCost o.items) =
        max 0 (sumTotalCost o.items - o.promoDiscount)
    by_cases hp : 0 < o.promoDiscount
    · rw [if_pos hp]
    · rw [if_neg hp]
      have : o.promoDiscount = 0 := le_antisymm (not_lt.mp hp) hpd
      rw [this, sub_zero, max_eq_right hsum]
  · rfl

/-- C1: for every order, after any `addItem` or `removeItem` (the two
saves that modify the items list), the stored `totalAmount` equals
`max 0 (sum of the items totalCost - promoDiscount)` and the stored
`totalQty` equals the sum of the items `qty`. -/
theorem order_totals_invariant :
    (∀ (o : Order) (c : Nat) (q up : Rat) (o' : Order),
       Order.addItem o c q up = Except.ok o' →
       o'.totalAmount = max 0 (sumTotalCost o'.items - o'.promoDiscount) ∧
       o'.totalQty = sumQty o'.items) ∧
    (∀ (o : Order) (c : Nat) (o' : Order),
       Order.removeItem o c = Except.ok o' →
       o'.totalAmount = max 0 (sumTotalCost o'.items - o'.promoDiscount) ∧
       o'.totalQty = sumQty o'.items) := by
  constructor
  · intro o c q up o' h
    exact save_items_modified_invariant _ _ h
  · intro o c o' h
    exact save_items_modified_invariant _ _ h

/-- Witness for C1: adding a new line for item 2 (qty 1 at unit price 50)
to the sample pending order yields stored totals 150 / qty 3 satisfying
the invariant. -/
theorem order_totals_invariant_witness :
    Order.addItem (mkSampleOrder .pending) 2 1 50 =
      Except.ok { items := [{ itemCode := 1, qty := 2, unitPrice := 100, totalCost := 200 },
                            { itemCode := 2, qty := 1, unitPrice := 50, totalCost := 50 }],
                  totalQty := 3, totalAmount := 250, promoDiscount := 0,
                  orderStatus := .pending, isActive := true } ∧
    ((250 : Rat) = max 0 (sumTotalCost [{ itemCode := 1, qty := 2, unitPrice := 100, totalCost := 200 },
                                        { itemCode := 2, qty := 1, unitPrice := 50, totalCost := 50 }] - 0) ∧
     (3 : Rat) = sumQty [{ itemCode := 1, qty := 2, unitPrice := 100, totalCost := 200 },
                         { itemCode := 2, qty := 1, unitPrice := 50, totalCost := 50 }]) := by
  have hrun : Order.addItem (mkSampleOrder .pending) 2 1 50 =
      Except.ok { items := [{ itemCode := 1, qty := 2, unitPrice := 100, totalCost := 200 },
                            { itemCode := 2, qty := 1, unitPrice := 50, totalCost := 50 }],
                  totalQty := 3, totalAmount := 250, promoDiscount := 0,
                  orderStatus := .pending, isActive := true } := by
    simp only [Order.addItem, mkSampleOrder, addItemToList, saveOrder, statusOk, fieldsOk,
      itemValid, orderStatusEnum, recomputeTotals, sumQty, sumTotalCost, List.foldl_cons,
      List.foldl_nil, List.all_cons, List.all_nil]
    norm_num [itemValid]
  refine ⟨hrun, ?_⟩
  have h := order_totals_invariant.1 (mkSampleOrder .pending) 2 1 50 _ hrun
  simpa using h

/-- Unfolding of `applyMaxCap` when `maxDiscountAmount` is present. -/
lemma applyMaxCap_some (p : Promo) (m da : Rat) (h : p.maxDiscountAmount = some m) :
    applyMaxCap p da = if m ≠ 0 ∧ m < da then m else da := by
  unfold applyMaxCap
  rw [h]

/-- Unfolding of `calculateDiscount` on the valid path. -/
lemma calculateDiscount_valid (p : Promo) (now : Int) (v : Rat)
    (hval : p.isValidAt now = true) (hmin : p.minOrderValue ≤ v) :
    p.calculateDiscount now v =
      match (if p.discountType = DiscountType.percentage then
               some (v * p.discount / 100)
             else p.discountAmount) with
      | none => none
      | some da => some (min (applyMaxCap p da) v) := by
  unfold Promo.calculateDiscount
  rw [if_neg]
  rintro (h | h)
  · rw [hval] at h
    cases h
  · exact absurd h (not_lt.mpr hmin)

/-- C2: for every promo and order value, `calculateDiscount` returns 0
when the promo is invalid (in the sense of the `isValid` method:
inactive, outside the validity window, or the usage-limit conjunct
fails) or the order value is below `minOrderValue`; otherwise it returns
`orderValue * discount / 100` for percentage type or the flat
`discountAmount` for fixed type, passed through the `maxDiscountAmount`
cap; the result never exceeds a positive `maxDiscountAmount` cap when one
is set (the code treats a zero cap as unset, by JS truthiness), and the
result never exceeds a nonnegative order value. -/
theorem calculateDiscount_spec (p : Promo) (now : Int) (v : Rat) :
    ((p.isValidAt now = false ∨ v < p.minOrderValue) →
       p.calculateDiscount now v = some 0) ∧
    (p.isValidAt now = true → p.minOrderValue ≤ v →
       (p.discountType = DiscountType.percentage →
          p.calculateDiscount now v = some (min (applyMaxCap p (v * p.discount / 100)) v)) ∧
       (∀ a, p.discountType = DiscountType.fixed → p.discountAmount = some a →
          p.calculateDiscount now v = some (min (applyMaxCap p a) v))) ∧
    (0 ≤ v → ∀ d, p.calculateDiscount now v = some d → d ≤ v) ∧
    (∀ m, p.maxDiscountAmount = some m → 0 < m →
       ∀ d, p.calculateDiscount now v = some d → d ≤ m) := by
  refine ⟨?_, ?_, ?_, ?_⟩
  · intro h
    rw [Promo.calculateDiscount, if_pos h]
  · intro hval hmin
    constructor
    · intro hdt
      rw [calculateDiscount_valid p now v hval hmin, if_pos hdt]
    · intro a hdt hda
      rw [calculateDiscount_valid p now v hval hmin,
          if_neg (by rw [hdt]; exact (by decide)), hda]
  · intro hv d hd
    by_cases hc : (p.isValidAt now = false ∨ v < p.minOrderValue)
    · rw [Promo.calculateDiscount, if_pos hc] at hd
      injection hd with h
      rwa [← h]
    · rcases not_or.mp hc with ⟨hval, hmin⟩
      rw [calculateDiscount_valid p now v (by simpa using Bool.of_not_eq_false hval)
            (not_lt.mp hmin)] at hd
      cases hda : (if p.discountType = DiscountType.percentage then
                     some (v * p.discount / 100)
                   else p.discountAmount) with
      | none =>
        rw [hda] at hd
        cases hd
      | some da =>
        rw [hda] at hd
        injection hd with h
        rw [← h]
        exact min_le_right _ _
  · intro m hm hmpos d hd
    by_cases hc : (p.isValidAt now = false ∨ v < p.minOrderValue)
    · rw [Promo.calculateDiscount, if_pos hc] at hd
      injection hd with h
      rw [← h]
      exact le_of_lt hmpos
    · rcases not_or.mp hc with ⟨hval, hmin⟩
      rw [calculateDiscount_valid p now v (by simpa using Bool.of_not_eq_false hval)
            (not_lt.mp hmin)] at hd
      cases hda : (if p.discountType = DiscountType.percentage then
                     some (v * p.discount / 100)
                   else p.discountAmount) with
      | none =>
        rw [hda] at hd
        cases hd
      | some da =>
        rw [hda] at hd
        injection hd with h
        rw [← h]
        have hcap : applyMaxCap p da ≤ m := by
          rw [applyMaxCap_some p m da hm]
          by_cases hx : (m ≠ 0 ∧ m < da)
          · rw [if_pos hx]
          · rw [if_neg hx]
            rcases not_and_or.mp hx with h0 | hlt
            · exact absurd (ne_of_gt hmpos) (not_not.mpr (not_not.mp h0))
            · exact not_lt.mp hlt
        exact le_trans (min_le_left _ _) hcap

/-- A sample valid percentage promo with a positive discount cap:
10 percent off, capped at 40, valid window 0..10, unlimited usage
(usageLimit 0). -/
def examplePromo : Promo :=
  { discount := 10, discountAmount := none, discountType := .percentage,
    startDate := 0, endDate := 10, isActive := true, minOrderValue := 0,
    maxDiscountAmount := some 40, usageLimit := some 0, usedCount := 0 }

/-- Witness for C2: on `examplePromo` at time 5 with order value 1000 the
raw discount 100 is capped to 40, which exceeds neither the cap nor the
order value. -/
theorem calculateDiscount_spec_witness :
    Promo.calculateDiscount examplePromo 5 1000 = some 40 ∧
    (40 : Rat) ≤ 1000 ∧ (40 : Rat) ≤ 40 := by
  have hval : Promo.isValidAt examplePromo 5 = true := by
    simp only [Promo.isValidAt, examplePromo]
    norm_num
  have hrun : Promo.calculateDiscount examplePromo 5 1000 = some 40 := by
    rw [calculateDiscount_valid examplePromo 5 1000 hval (by norm_num [examplePromo])]
    simp only [examplePromo, applyMaxCap]
    norm_num [min_def]
  exact ⟨hrun,
    (calculateDiscount_spec examplePromo 5 1000).2.2.1 (by norm_num) 40 hrun,
    (calculateDiscount_spec examplePromo 5 1000).2.2.2 40 rfl (by norm_num) 40 hrun⟩

/-- C10: for every promo whose `usageLimit` is unset (JS `undefined`),
`isValid()` is false and `calculateDiscount` returns 0 for every order
value, even when the promo is active and inside its validity window; yet
the `status` virtual reports such a promo as active whenever it is
active and inside the window. -/
theorem promo_unset_usage_limit (p : Promo) (now : Int) (v : Rat)
    (h : p.usageLimit = none) :
    p.isValidAt now = false ∧
    p.calculateDiscount now v = some 0 ∧
    (p.isActive = true → p.startDate ≤ now → now ≤ p.endDate →
       p.statusAt now = "active") := by
  have h1 : p.isValidAt now = false := by
    unfold Promo.isValidAt
    rw [h]
    simp
  refine ⟨h1, ?_, ?_⟩
  · rw [Promo.calculateDiscount, if_pos (Or.inl h1)]
  · intro ha h2 h3
    unfold Promo.statusAt
    rw [if_neg (by simp [ha]), if_neg (not_lt.mpr h2), if_neg (not_lt.mpr h3),
        if_neg (by rw [h]; exact Bool.false_ne_true)]

/-- An otherwise-healthy promo (active, inside its window) whose
`usageLimit` was never set. -/
def noLimitPromo : Promo :=
  { discount := 10, discountAmount := none, discountType := .percentage,
    startDate := 0, endDate := 10, isActive := true, minOrderValue := 0,
    maxDiscountAmount := none, usageLimit := none, usedCount := 0 }

/-- Witness for C10: `noLimitPromo` at time 5 is reported active by the
status virtual while `isValid` is false and the discount is 0. -/
theorem promo_unset_usage_limit_witness :
    Promo.isValidAt noLimitPromo 5 = false ∧
    Promo.calculateDiscount noLimitPromo 5 1000 = some 0 ∧
    Promo.statusAt noLimitPromo 5 = "active" :=
  ⟨(promo_unset_usage_limit noLimitPromo 5 1000 rfl).1,
   (promo_unset_usage_limit noLimitPromo 5 1000 rfl).2.1,
   (promo_unset_usage_limit noLimitPromo 5 1000 rfl).2.2 rfl (by norm_num [noLimitPromo])
     (by norm_num [noLimitPromo])⟩

/-- C3: for every shipping table and order value, the band is selected by
inclusive upper bound: values up to 50000 get the first fee, up to 100000
the second, up to 150000 the third, up to 200000 the fourth, anything
larger the fifth; in particular 50000 gets the first fee and 50001 the
second. -/
theorem shipping_band_selection (t : InventoryShipPrice) (v : Rat) :
    (v ≤ 50000 → t.getShippingPrice v = t.price0to50k) ∧
    (50000 < v → v ≤ 100000 → t.getShippingPrice v = t.price50kto100k) ∧
    (100000 < v → v ≤ 150000 → t.getShippingPrice v = t.price100kto150k) ∧
    (150000 < v → v ≤ 200000 → t.getShippingPrice v = t.price150kto200k) ∧
    (200000 < v → t.getShippingPrice v = t.priceAbove200k) ∧
    t.getShippingPrice 50000 = t.price0to50k ∧
    t.getShippingPrice 50001 = t.price50kto100k := by
  unfold InventoryShipPrice.getShippingPrice
  refine ⟨?_, ?_, ?_, ?_, ?_, ?_, ?_⟩
  · intro h1
    rw [if_pos h1]
  · intro h1 h2
    rw [if_neg (not_le.mpr h1), if_pos h2]
  · intro h1 h2
    rw [if_neg (by linarith), if_neg (not_le.mpr h1), if_pos h2]
  · intro h1 h2
    rw [if_neg (by linarith), if_neg (by linarith), if_neg (not_le.mpr h1), if_pos h2]
  · intro h1
    rw [if_neg (by linarith), if_neg (by linarith), if_neg (by linarith),
        if_neg (not_le.mpr h1)]
  · rw [if_pos (by norm_num)]
  · rw [if_neg (by norm_num), if_pos (by norm_num)]

/-- A sample active shipping table with strictly decreasing band fees. -/
def sampleShipTable : InventoryShipPrice :=
  { itemCode := 7, price0to50k := 100, price50kto100k := 80,
    price100kto150k := 60, price150kto200k := 40, priceAbove200k := 20,
    isActive := true }

/-- Witness for C3: on the sample table, order value 50001 falls in the
second band, whose fee is 80. -/
theorem shipping_band_selection_witness :
    InventoryShipPrice.getShippingPrice sampleShipTable 50001 =
      sampleShipTable.price50kto100k ∧
    sampleShipTable.price50kto100k = 80 :=
  ⟨(shipping_band_selection sampleShipTable 50001).2.1 (by norm_num) (by norm_num),
   rfl⟩

/-- Counterexample for C8: the model-level shipping fee lookup
`getShippingPriceForOrder` does NOT fail when no active shipping table
exists for the item — on an empty collection it returns the default
fee 0. -/
theorem shipping_lookup_default_zero_cex :
    getShippingPriceForOrder [] 7 60000 = 0 := by
  rfl

/-- C8 (amended): when no active shipping table exists for an item, the
shipping-price HTTP endpoint fails with a 404 not-found error, but the
model static `getShippingPriceForOrder` (uncalled elsewhere in the
repository) returns the default fee 0 instead of failing. -/
theorem shipping_no_table_amended (db : List InventoryShipPrice) (code : Nat)
    (v : Rat) (h : findOneActiveShipPrice db code = none) :
    getShippingPriceEndpoint db code v =
      Except.error (404, "Shipping price not found for this item") ∧
    getShippingPriceForOrder db code v = 0 := by
  unfold getShippingPriceEndpoint getShippingPriceForOrder
  rw [h]
  exact ⟨rfl, rfl⟩

/-- An inactive shipping table for item 7: the active-only query must not
find it. -/
def inactiveShipTable : InventoryShipPrice :=
  { itemCode := 7, price0to50k := 100, price50kto100k := 80,
    price100kto150k := 60, price150kto200k := 40, priceAbove200k := 20,
    isActive := false }

/-- Witness for the amended C8: with only an inactive table for item 7
stored, the endpoint 404s and the static returns 0. -/
theorem shipping_no_table_amended_witness :
    getShippingPriceEndpoint [inactiveShipTable] 7 60000 =
      Except.error (404, "Shipping price not found for this item") ∧
    getShippingPriceForOrder [inactiveShipTable] 7 60000 = 0 :=
  shipping_no_table_amended [inactiveShipTable] 7 60000 (by rfl)

/-- A one-line pending cart: one unit of item 1 at the snapshot unit
price 100. -/
def cartOrder : Order :=
  { items := [{ itemCode := 1, qty := 1, unitPrice := 100, totalCost := 100 }],
    totalQty := 1, totalAmount := 100, promoDiscount := 0,
    orderStatus := .pending, isActive := true }

/-- Counterexample for C4: adding 2 more units of item 1 while passing
unit price 50 (the price the caller re-fetches at add time) recomputes
the line total as 3 * 50 = 150, not 3 * 100 = 300 as the original
snapshot price would give — `addItem` uses the newly supplied price, not
the stored snapshot. -/
theorem addItem_price_snapshot_cex :
    (Order.addItem cartOrder 1 2 50).map (fun o => o.items.map OrderItem.totalCost) =
      Except.ok [150] ∧
    (150 : Rat) ≠ (1 + 2) * 100 := by
  constructor
  · simp only [Order.addItem, cartOrder, addItemToList, saveOrder, statusOk, fieldsOk,
      itemValid, orderStatusEnum, recomputeTotals, sumQty, sumTotalCost, List.foldl_cons,
      List.foldl_nil, List.all_cons, List.all_nil]
    norm_num [itemValid, Except.map]
  · norm_num

/-- C4 (amended): for an existing line, `addItem` increments that line's
quantity and recomputes its `totalCost` as the new quantity times the
unit price ARGUMENT (the price the caller `addToCart` freshly fetches
from InventoryPrice), leaving the line's stored `unitPrice` snapshot
field unchanged; for an itemCode not present it appends a new line with
the supplied price.  The first conjunct ties a successful `addItem` to
the list transformation; the last two characterise that transformation on
the two shapes. -/
theorem addItem_amended :
    (∀ (o : Order) (c : Nat) (q up : Rat) (o' : Order),
        Order.addItem o c q up = Except.ok o' →
        o'.items = addItemToList o.items c q up) ∧
    (∀ (pre post : List OrderItem) (i : OrderItem) (c : Nat) (q up : Rat),
        (∀ j ∈ pre, j.itemCode ≠ c) → i.itemCode = c →
        addItemToList (pre ++ i :: post) c q up =
          pre ++ { i with qty := i.qty + q, totalCost := (i.qty + q) * up } :: post) ∧
    (∀ (items : List OrderItem) (c : Nat) (q up : Rat),
        (∀ j ∈ items, j.itemCode ≠ c) →
        addItemToList items c q up =
          items ++ [{ itemCode := c, qty := q, unitPrice := up, totalCost := q * up }]) := by
  refine ⟨?_, ?_, ?_⟩
  · intro o c q up o' h
    obtain ⟨-, -, ho'⟩ := saveOrder_ok true _ o' h
    simp only [if_pos] at ho'
    subst ho'
    rfl
  · intro pre post i c q up hpre hi
    induction pre with
    | nil =>
      simp only [List.nil_append, addItemToList, if_pos hi]
    | cons j rest ih =>
      have hj : j.itemCode ≠ c := hpre j (by simp)
      simp only [List.cons_append, addItemToList, if_neg hj, List.append_eq]
      rw [ih (fun k hk => hpre k (by simp [hk]))]
  · intro items c q up hitems
    induction items with
    | nil => rfl
    | cons j rest ih =>
      have hj : j.itemCode ≠ c := hitems j (by simp)
      simp only [addItemToList, if_neg hj, List.cons_append, List.append_eq]
      rw [ih (fun k hk => hitems k (by simp [hk]))]

/-- Witness for the amended C4: in a list with an unrelated line (item 5)
followed by the line for item 1 (qty 1, snapshot price 100), adding 2
units of item 1 at supplied price 50 yields qty 1 + 2 and totalCost
(1 + 2) * 50, with the stored snapshot price 100 untouched. -/
theorem addItem_amended_witness :
    addItemToList
        ([{ itemCode := 5, qty := 1, unitPrice := 10, totalCost := 10 }] ++
          { itemCode := 1, qty := 1, unitPrice := 100, totalCost := 100 } :: []) 1 2 50 =
      [{ itemCode := 5, qty := 1, unitPrice := 10, totalCost := 10 }] ++
        ({ itemCode := 1, qty := 1 + 2, unitPrice := 100, totalCost := (1 + 2) * 50 } :
          OrderItem) :: [] :=
  addItem_amended.2.1 [{ itemCode := 5, qty := 1, unitPrice := 10, totalCost := 10 }] []
    { itemCode := 1, qty := 1, unitPrice := 100, totalCost := 100 } 1 2 50
    (by intro j hj; simp at hj; rw [hj]; norm_num) rfl

/-- C9: for every order, calling `updateStatus` with any of the three
vendor-endpoint statuses missing from the Order schema enum
(truck_loading, in_transit, out_for_delivery) fails schema validation, so
the save is rejected and the persisted status is unchanged — even though
the vendor endpoint lists all three as allowed target statuses. -/
theorem schema_rejects_vendor_statuses (o : Order) (s : OStatus)
    (h : s = .truck_loading ∨ s = .in_transit ∨ s = .out_for_delivery) :
    s ∈ vendorAllowedTargets ∧ s ∉ orderStatusEnum ∧
    Order.updateStatus o s = Except.error "ValidationError" := by
  have hmem : s ∈ vendorAllowedTargets := by
    rcases h with h | h | h <;> rw [h] <;> decide
  have hnot : s ∉ orderStatusEnum := by
    rcases h with h | h | h <;> rw [h] <;> decide
  refine ⟨hmem, hnot, ?_⟩
  unfold Order.updateStatus saveOrder
  rw [if_neg]
  intro hcond
  rw [Bool.and_eq_true] at hcond
  exact hnot (of_decide_eq_true hcond.1)

/-- Witness for C9: a pending sample order cannot be saved with status
truck_loading. -/
theorem schema_rejects_vendor_statuses_witness :
    OStatus.truck_loading ∈ vendorAllowedTargets ∧
    OStatus.truck_loading ∉ orderStatusEnum ∧
    Order.updateStatus (mkSampleOrder .pending) OStatus.truck_loading =
      Except.error "ValidationError" :=
  schema_rejects_vendor_statuses (mkSampleOrder .pending) OStatus.truck_loading
    (Or.inl rfl)

/-- A status update whose target is in the schema enum succeeds on a
document whose other fields validate, and only changes the status. -/
lemma updateStatus_ok (o : Order) (s : OStatus) (hs : s ∈ orderStatusEnum)
    (hf : fieldsOk o = true) :
    Order.updateStatus o s = Except.ok { o with orderStatus := s } := by
  have hst : statusOk { o with orderStatus := s } = true := by
    simp [statusOk, hs]
  have hf2 : fieldsOk { o with orderStatus := s } = true := hf
  simp [Order.updateStatus, saveOrder, hst, hf2]

/-- Counterexample for C5: on a delivered, active order the admin manual
status override succeeds in setting the status to cancelled — the
operation neither fails nor leaves the status delivered. -/
theorem delivered_admin_override_cex :
    (adminUpdateOrderStatus (mkSampleOrder .delivered) OStatus.cancelled).map
        Order.orderStatus = Except.ok OStatus.cancelled := by
  have hupd := updateStatus_ok (mkSampleOrder .delivered) .cancelled (by decide)
    (by norm_num [fieldsOk, mkSampleOrder, itemValid])
  unfold adminUpdateOrderStatus
  rw [if_neg (by decide), if_neg (by decide), hupd]
  rfl

/-- C5 (amended): on a delivered order the admin cancel endpoint fails
(leaving the status untouched) and every vendor status update is
rejected; but the admin manual status override performs no
current-status check, so it can still move a delivered order to
cancelled. -/
theorem delivered_terminal_amended (o : Order) (hd : o.orderStatus = .delivered)
    (ha : o.isActive = true) :
    adminCancelOrder o = Except.error "Cannot cancel delivered order" ∧
    (∀ s, ∃ e, updateVendorOrderStatus o s = Except.error e) ∧
    (fieldsOk o = true →
       (adminUpdateOrderStatus o OStatus.cancelled).map Order.orderStatus =
         Except.ok OStatus.cancelled) := by
  refine ⟨?_, ?_, ?_⟩
  · unfold adminCancelOrder
    rw [if_neg (by simp [ha]), if_pos hd]
  · intro s
    unfold updateVendorOrderStatus
    by_cases hs : s ∉ vendorAllowedTargets
    · rw [if_pos hs]
      exact ⟨_, rfl⟩
    · rw [if_neg hs, if_neg (by simp [ha]),
          if_pos (by rw [hd]; decide)]
      exact ⟨_, rfl⟩
  · intro hf
    have hupd := updateStatus_ok o .cancelled (by decide) hf
    unfold adminUpdateOrderStatus
    rw [if_neg (by decide), if_neg (by simp [ha]), hupd]
    rfl

/-- Witness for the amended C5, on the delivered sample order. -/
theorem delivered_terminal_amended_witness :
    adminCancelOrder (mkSampleOrder .delivered) =
      Except.error "Cannot cancel delivered order" ∧
    (∃ e, updateVendorOrderStatus (mkSampleOrder .delivered) OStatus.cancelled =
      Except.error e) ∧
    (adminUpdateOrderStatus (mkSampleOrder .delivered) OStatus.cancelled).map
        Order.orderStatus = Except.ok OStatus.cancelled :=
  ⟨(delivered_terminal_amended (mkSampleOrder .delivered) rfl rfl).1,
   (delivered_terminal_amended (mkSampleOrder .delivered) rfl rfl).2.1 OStatus.cancelled,
   (delivered_terminal_amended (mkSampleOrder .delivered) rfl rfl).2.2
     (by norm_num [fieldsOk, mkSampleOrder, itemValid])⟩

/-- The only vendor target statuses the Order schema can also store. -/
lemma vendor_target_enum_cases (s : OStatus) (h1 : s ∈ vendorAllowedTargets)
    (h2 : s ∈ orderStatusEnum) : s = .shipped ∨ s = .delivered := by
  cases s <;> revert h1 h2 <;> decide

/-- The only vendor-updatable current statuses the Order schema can also
store. -/
lemma vendor_current_enum_cases (c : OStatus) (h1 : c ∈ vendorAllowedCurrent)
    (h2 : c ∈ orderStatusEnum) : c = .order_confirmed ∨ c = .shipped := by
  cases c <;> revert h1 h2 <;> decide

/-- C6: a vendor status update is rejected whenever the order is in a
status prior to order_confirmed (pending, vendor_accepted, payment_done);
it is rejected whenever the target is outside the five shipping statuses
(in particular a regression to vendor_accepted is rejected from any
state); and an update that succeeds end to end never moves the stored
status backwards in the status sequence (the stored current status is
constrained to the schema enum). -/
theorem vendor_status_update_rules (o : Order) (s : OStatus) :
    ((o.orderStatus = .pending ∨ o.orderStatus = .vendor_accepted ∨
        o.orderStatus = .payment_done) →
       ∃ e, updateVendorOrderStatus o s = Except.error e) ∧
    (s ∉ vendorAllowedTargets →
       ∃ e, updateVendorOrderStatus o s = Except.error e) ∧
    (∀ o', o.orderStatus ∈ orderStatusEnum →
       updateVendorOrderStatus o s = Except.ok o' →
       o'.orderStatus = s ∧ statusIdx o.orderStatus ≤ statusIdx o'.orderStatus) := by
  refine ⟨?_, ?_, ?_⟩
  · intro hc
    have hcur : o.orderStatus ∉ vendorAllowedCurrent := by
      rcases hc with h | h | h <;> rw [h] <;> decide
    unfold updateVendorOrderStatus
    by_cases hs : s ∉ vendorAllowedTargets
    · rw [if_pos hs]
      exact ⟨_, rfl⟩
    · rw [if_neg hs]
      by_cases hia : o.isActive = false
      · rw [if_pos hia]
        exact ⟨_, rfl⟩
      · rw [if_neg hia, if_pos hcur]
        exact ⟨_, rfl⟩
  · intro hs
    unfold updateVendorOrderStatus
    rw [if_pos hs]
    exact ⟨_, rfl⟩
  · intro o' henum hok
    unfold updateVendorOrderStatus at hok
    by_cases hs : s ∉ vendorAllowedTargets
    · rw [if_pos hs] at hok
      cases hok
    · rw [if_neg hs] at hok
      by_cases hia : o.isActive = false
      · rw [if_pos hia] at hok
        cases hok
      · rw [if_neg hia] at hok
        by_cases hcur : o.orderStatus ∉ vendorAllowedCurrent
        · rw [if_pos hcur] at hok
          cases hok
        · rw [if_neg hcur] at hok
          obtain ⟨hst, -, ho'⟩ := saveOrder_ok false _ o' hok
          have ho'2 : o' = { o with orderStatus := s } := by simpa using ho'
          have hsenum : s ∈ orderStatusEnum := by
            have hd := of_decide_eq_true hst
            simpa using hd
          have hs2 : s ∈ vendorAllowedTargets := not_not.mp hs
          have hcur2 : o.orderStatus ∈ vendorAllowedCurrent := not_not.mp hcur
          subst ho'2
          refine ⟨rfl, ?_⟩
          show statusIdx o.orderStatus ≤ statusIdx s
          rcases vendor_target_enum_cases s hs2 hsenum with h | h <;>
            rcases vendor_current_enum_cases o.orderStatus hcur2 henum with h2 | h2 <;>
            rw [h, h2] <;> decide
  
/-- Witness for C6: the vendor moves the order_confirmed sample order to
shipped (index 3 to index 6 in the sequence, forward). -/
theorem vendor_status_update_rules_witness :
    (mkSampleOrder .shipped).orderStatus = OStatus.shipped ∧
    statusIdx (mkSampleOrder .order_confirmed).orderStatus ≤
      statusIdx (mkSampleOrder .shipped).orderStatus :=
  (vendor_status_update_rules (mkSampleOrder .order_confirmed) OStatus.shipped).2.2
    (mkSampleOrder .shipped) (by decide)
    (by
      have hupd := updateStatus_ok (mkSampleOrder .order_confirmed) .shipped (by decide)
        (by norm_num [fieldsOk, mkSampleOrder, itemValid])
      unfold updateVendorOrderStatus
      rw [if_neg (by decide), if_neg (by decide), if_neg (by decide), hupd]
      exact rfl)

/-- The status-history event the payment callback appends first. -/
def pdEvent : StatusEvent :=
  { status := .payment_done, remarks := "Payment processed successfully" }

/-- The status-history event the payment callback appends second. -/
def ocEvent : StatusEvent :=
  { status := .order_confirmed, remarks := "Order confirmed after successful payment" }

/-- C7: after a simulated payment completes successfully, the callback
performs exactly two status transitions as two explicit separate
`updateStatus` steps — first to payment_done (an intermediate state in
which the stored status IS payment_done), then to order_confirmed — and
appends exactly the two corresponding history events, in that order. -/
theorem payment_success_two_transitions (st : PayState)
    (hf : fieldsOk st.order = true) :
    Order.updateStatus st.order .payment_done =
      Except.ok { st.order with orderStatus := .payment_done } ∧
    ({ st.order with orderStatus := .payment_done } : Order).orderStatus =
      .payment_done ∧
    Order.updateStatus { st.order with orderStatus := .payment_done }
        .order_confirmed =
      Except.ok { st.order with orderStatus := .order_confirmed } ∧
    paymentSuccessCallback st =
      Except.ok { order := { st.order with orderStatus := .order_confirmed },
                  history := st.history ++ [pdEvent, ocEvent],
                  paymentStatus := "completed" } := by
  have h1 := updateStatus_ok st.order .payment_done (by decide) hf
  have hf2 : fieldsOk { st.order with orderStatus := OStatus.payment_done } = true := hf
  have h2 := updateStatus_ok { st.order with orderStatus := OStatus.payment_done }
    .order_confirmed (by decide) hf2
  refine ⟨h1, rfl, h2, ?_⟩
  unfold paymentSuccessCallback
  rw [h1]
  show ((match Order.updateStatus { st.order with orderStatus := .payment_done }
            .order_confirmed with
         | .error e => Except.error e
         | .ok o2 =>
           Except.ok { order := o2,
                       history := createStatusUpdate
                         (createStatusUpdate st.history .payment_done
                           "Payment processed successfully")
                         .order_confirmed "Order confirmed after successful payment",
                       paymentStatus := "completed" }) : Except String PayState) = _
  rw [h2]
  unfold createStatusUpdate
  rw [List.append_assoc]
  rfl

/-- A payment-callback state over the vendor_accepted sample order with
an empty prior history and a processing payment. -/
def samplePayState : PayState :=
  { order := mkSampleOrder .vendor_accepted, history := [],
    paymentStatus := "processing" }

/-- Witness for C7: running the callback on the sample state yields the
order_confirmed order and exactly the two history events. -/
theorem payment_success_two_transitions_witness :
    paymentSuccessCallback samplePayState =
      Except.ok { order := { samplePayState.order with
                               orderStatus := OStatus.order_confirmed },
                  history := samplePayState.history ++ [pdEvent, ocEvent],
                  paymentStatus := "completed" } :=
  (payment_success_two_transitions samplePayState
    (by norm_num [fieldsOk, samplePayState, mkSampleOrder, itemValid])).2.2.2
